import Mathlib

/-!
Shallow embedding of the SpaceLink streaming core, with proofs of the
spec's testable properties against the embedded code.

Embedded modules:
* `network_optimizer.py` — `JitterBuffer`, `AdaptiveBitrate`
* `audio_capture.py` — `AudioCaptureTrack.recv` and the capture queue
* `src/modules/hw_encoder.py` — `HardwareEncoderManager`
* `src/core/webrtc_server.py` — signaling state machine (spec-modelled)
* `stream_capture.py` — `ScreenCapture.select_monitor`

Python floats are embedded as exact rationals (`ℚ`) except where the code
takes a square root (`statistics.stdev`), where reals (`ℝ`) are used.
Python `int()` truncation toward zero is `pyTrunc`; numpy's
`astype(np.int16)` two's-complement conversion is `int16wrap`.
-/

namespace SpaceLink

/-- `collections.deque(maxlen := cap)` with `append`: the new element goes to
the right, and if the deque is full the oldest (leftmost) element is dropped. -/
def pushBounded {α : Type} (cap : ℕ) (l : List α) (x : α) : List α :=
  let l2 := l ++ [x]
  l2.drop (l2.length - cap)

/-- `statistics.mean`. -/
def mean {α : Type} [DivisionRing α] (l : List α) : α :=
  l.sum / (l.length : α)

/-- Sample variance with Bessel's correction, as used by `statistics.stdev`. -/
noncomputable def sampleVariance (l : List ℝ) : ℝ :=
  (l.map (fun x => (x - mean l) ^ 2)).sum / ((l.length : ℝ) - 1)

/-- `statistics.stdev`: square root of the sample variance. -/
noncomputable def stdev (l : List ℝ) : ℝ :=
  Real.sqrt (sampleVariance l)

/-- Python `int()` on a float: truncation toward zero. -/
def pyTrunc {α : Type} [LinearOrderedField α] [FloorRing α] (x : α) : ℤ :=
  if 0 ≤ x then ⌊x⌋ else ⌈x⌉

/-- numpy `astype(np.int16)` on an integer value: two's-complement wraparound
into `[-32768, 32767]`. -/
def int16wrap (n : ℤ) : ℤ :=
  (n + 32768) % 65536 - 32768

/-! ## `network_optimizer.py`: `JitterBuffer` -/

/-- State of `JitterBuffer` (`network_optimizer.py`).  Numeric sample type is a
parameter so that the sqrt-free operations stay computable at `ℚ`. -/
structure JitterBuffer (α : Type) where
  minDelay : ℤ
  maxDelay : ℤ
  targetDelay : ℤ
  currentDelay : ℤ
  arrivalTimes : List α
  jitterHistory : List α

/-- `JitterBuffer.__init__(min_delay=20, max_delay=200, target_delay=50)`. -/
def mkJitterBuffer {α : Type} : JitterBuffer α :=
  { minDelay := 20, maxDelay := 200, targetDelay := 50, currentDelay := 50,
    arrivalTimes := [], jitterHistory := [] }

/-- The last two elements of a list (second-to-last, last), when they exist. -/
def lastTwo {α : Type} (l : List α) : Option (α × α) :=
  match l.reverse with
  | a :: b :: _ => some (b, a)
  | _ => none

/-- `JitterBuffer.add_packet`: record an arrival time (deque maxlen 100), and
once at least two arrivals are present append the newest inter-arrival delta
to `jitter_history` (deque maxlen 50). -/
def add_packet {α : Type} [Sub α] (jb : JitterBuffer α) (now : α) : JitterBuffer α :=
  let arrivals := pushBounded 100 jb.arrivalTimes now
  match lastTwo arrivals with
  | some (prev, lastv) =>
      { jb with arrivalTimes := arrivals,
                jitterHistory := pushBounded 50 jb.jitterHistory (lastv - prev) }
  | none => { jb with arrivalTimes := arrivals }

/-- `JitterBuffer.calculate_optimal_delay`: below 5 jitter samples return the
configured target delay; otherwise `int(mean + 2*stdev)` clamped to
`[min_delay, max_delay]`, stored in `current_delay` and returned. -/
noncomputable def calculate_optimal_delay (jb : JitterBuffer ℝ) : ℤ × JitterBuffer ℝ :=
  if jb.jitterHistory.length < 5 then (jb.targetDelay, jb)
  else
    let jitter := stdev jb.jitterHistory
    let meanDelay := mean jb.jitterHistory
    let optimal := pyTrunc (meanDelay + 2 * jitter)
    let newDelay := max jb.minDelay (min jb.maxDelay optimal)
    (newDelay, { jb with currentDelay := newDelay })

/-- Written from the spec's words (§4.3), for comparison with
`calculate_optimal_delay`: optimal delay is `mean(deltas) + 2 * stdev(deltas)`
truncated to an integer and clamped to `[minDelay, maxDelay]`. -/
noncomputable def specOptimalDelay (minD maxD : ℤ) (deltas : List ℝ) : ℤ :=
  max minD (min maxD (pyTrunc (mean deltas + 2 * stdev deltas)))

/-! ## `network_optimizer.py`: `AdaptiveBitrate` -/

/-- State of `AdaptiveBitrate` (`network_optimizer.py`). -/
structure AdaptiveBitrate where
  currentPreset : String
  latencyHistory : List ℚ
  bandwidthHistory : List ℚ
  lastAdjustment : ℚ
  adjustmentCooldown : ℚ

/-- `AdaptiveBitrate.__init__` (the initial `last_adjustment = time.time()` is
the construction time, passed explicitly). -/
def mkAdaptiveBitrate (constructedAt : ℚ) : AdaptiveBitrate :=
  { currentPreset := "1080p", latencyHistory := [], bandwidthHistory := [],
    lastAdjustment := constructedAt, adjustmentCooldown := 3 }

/-- `AdaptiveBitrate.update_metrics`: append to the latency window (deque
maxlen 30) and the bandwidth window (deque maxlen 20). -/
def update_metrics (s : AdaptiveBitrate) (lat bw : ℚ) : AdaptiveBitrate :=
  { s with latencyHistory := pushBounded 30 s.latencyHistory lat,
           bandwidthHistory := pushBounded 20 s.bandwidthHistory bw }

/-- `AdaptiveBitrate.calculate_quality` at wall-clock time `now`: returns the
chosen preset name and the updated controller state. -/
def calculate_quality (s : AdaptiveBitrate) (now : ℚ) : String × AdaptiveBitrate :=
  if s.latencyHistory.length < 3 then (s.currentPreset, s)
  else if now - s.lastAdjustment < s.adjustmentCooldown then (s.currentPreset, s)
  else
    let avgLatency := mean s.latencyHistory
    let avgBandwidth := if s.bandwidthHistory = [] then 5000 else mean s.bandwidthHistory
    let target :=
      if 150 < avgLatency ∨ avgBandwidth < 1000 then "480p"
      else if 100 < avgLatency ∨ avgBandwidth < 2000 then "720p"
      else if 50 < avgLatency ∨ avgBandwidth < 5000 then "1080p"
      else if 20 < avgLatency ∨ avgBandwidth < 10000 then "1440p"
      else "4k"
    if target ≠ s.currentPreset then
      (target, { s with currentPreset := target, lastAdjustment := now })
    else (s.currentPreset, s)

/-- Written from the spec's threshold table (§4.3), for comparison with
`calculate_quality`: fixed priority order, first matching row wins. -/
def tierTable (lat bw : ℚ) : String :=
  if lat > 150 ∨ bw < 1000 then "480p"
  else if lat > 100 ∨ bw < 2000 then "720p"
  else if lat > 50 ∨ bw < 5000 then "1080p"
  else if lat > 20 ∨ bw < 10000 then "1440p"
  else "4k"

/-- An externally observable operation on the bitrate controller: a metric
update or a tier-selection call at a given wall-clock time. -/
inductive ABOp : Type
  | update (lat bw : ℚ)
  | select (now : ℚ)

/-- Apply one operation to the controller state. -/
def abStep (s : AdaptiveBitrate) : ABOp → AdaptiveBitrate
  | ABOp.update lat bw => update_metrics s lat bw
  | ABOp.select now => (calculate_quality s now).2

/-- The wall-clock times at which a tier change occurs along a trace. -/
def changeTimes : List ABOp → AdaptiveBitrate → List ℚ
  | [], _ => []
  | ABOp.update lat bw :: rest, s => changeTimes rest (update_metrics s lat bw)
  | ABOp.select now :: rest, s =>
      if (calculate_quality s now).2.currentPreset ≠ s.currentPreset then
        now :: changeTimes rest ((calculate_quality s now).2)
      else changeTimes rest ((calculate_quality s now).2)

/-- Adjacent elements of the list are at least `c` apart. -/
def spaced (c : ℚ) : List ℚ → Prop
  | [] => True
  | [_] => True
  | a :: b :: r => a + c ≤ b ∧ spaced c (b :: r)

/-! ## `audio_capture.py`: `AudioCaptureTrack` -/

/-- A raw audio block: rows are sample instants, columns are channels.
Sample values are floats, embedded as rationals. -/
abbrev Block : Type := List (List ℚ)

/-- State of `AudioCaptureTrack` (`audio_capture.py`). -/
structure AudioTrack where
  sampleRate : ℕ
  channels : ℕ
  timestamp : ℕ
  samplesPerFrame : ℕ
  audioQueue : List Block
  muted : Bool
  volume : ℚ

/-- Emitted audio frame: presentation timestamp, quantized int16 samples,
declared sample count and rate. -/
structure AudioFrameEmitted where
  pts : ℕ
  samples : List (List ℤ)
  samplesCount : ℕ
  frameSampleRate : ℕ

/-- `AudioCaptureTrack.__init__(sample_rate=48000, channels=2)`: timestamp 0,
960 samples per frame, empty queue, unmuted, volume 1. -/
def mkAudioCaptureTrack (sampleRate channels : ℕ) : AudioTrack :=
  { sampleRate := sampleRate, channels := channels, timestamp := 0,
    samplesPerFrame := 960, audioQueue := [], muted := false, volume := 1 }

/-- The capture callback: `if not self._audio_queue.full(): put(block)` with
`maxsize = 50` — a full queue drops the new block. -/
def capturePut (t : AudioTrack) (b : Block) : AudioTrack :=
  if t.audioQueue.length < 50 then { t with audioQueue := t.audioQueue ++ [b] }
  else t

/-- The block `recv` will process: `get_nowait()` on a nonempty queue, and
`np.zeros((samples_per_frame, channels))` when the queue is empty. -/
def frontBlock (t : AudioTrack) : Block :=
  match t.audioQueue with
  | [] => List.replicate t.samplesPerFrame (List.replicate t.channels 0)
  | blk :: _ => blk

/-- The queue left after `get_nowait()` (unchanged when it was empty). -/
def popQueue (t : AudioTrack) : List Block :=
  match t.audioQueue with
  | [] => []
  | _ :: r => r

/-- `AudioCaptureTrack.recv`: dequeue the next block (or synthesize silence of
shape `(samples_per_frame, channels)` when the queue is empty), apply mute or
volume, scale by 32767 and convert to int16, and emit the frame with the
current presentation timestamp, advancing the timestamp by
`samples_per_frame`. -/
def recv (t : AudioTrack) : AudioFrameEmitted × AudioTrack :=
  let audioData : Block := frontBlock t
  let audioData2 : Block :=
    if t.muted then audioData.map (fun row => row.map (fun _ => (0 : ℚ)))
    else audioData.map (fun row => row.map (fun x => x * t.volume))
  let samples : List (List ℤ) :=
    audioData2.map (fun row => row.map (fun x => int16wrap (pyTrunc (x * 32767))))
  ({ pts := t.timestamp, samples := samples, samplesCount := t.samplesPerFrame,
     frameSampleRate := t.sampleRate },
   { t with audioQueue := popQueue t, timestamp := t.timestamp + t.samplesPerFrame })

/-- Written from the spec's words (§4.2), for comparison with `recv`:
quantization that clamps to the transport's int16 sample format range. -/
def specClampQuant (x : ℚ) : ℤ :=
  max (-32768) (min 32767 (pyTrunc (x * 32767)))

/-- An event interleaved with the life of one audio track: a consumer pull
(`recv`) or the background capture loop enqueuing a block. -/
inductive TrackOp : Type
  | pull
  | capture (b : Block)

/-- The presentation timestamps of the frames emitted along a trace. -/
def ptsTrace : List TrackOp → AudioTrack → List ℕ
  | [], _ => []
  | TrackOp.pull :: rest, t => (recv t).1.pts :: ptsTrace rest ((recv t).2)
  | TrackOp.capture b :: rest, t => ptsTrace rest (capturePut t b)

/-- The outer and per-row lengths of a block: its shape. -/
def blockShape {α : Type} (b : List (List α)) : ℕ × List ℕ :=
  (b.length, b.map List.length)

/-- Adjacent elements of a `ℕ` list are all related by `R`. -/
def chainP (R : ℕ → ℕ → Prop) : List ℕ → Prop
  | [] => True
  | [_] => True
  | a :: b :: r => R a b ∧ chainP R (b :: r)

/-! ## `src/modules/hw_encoder.py`: `HardwareEncoderManager` -/

/-- Encoder backend kinds (`EncoderType` enum). -/
inductive EncoderType : Type
  | software
  | nvenc
  | quicksync
  | amf
  | videotoolbox
deriving DecidableEq

/-- `EncoderInfo` dataclass. -/
structure EncoderInfo where
  encoderType : EncoderType
  name : String
  codec : String
  available : Bool
  description : String
deriving DecidableEq

/-- State of `HardwareEncoderManager`. -/
structure EncoderManager where
  availableEncoders : List EncoderInfo
  selectedEncoder : Option EncoderInfo
deriving DecidableEq

/-- Result of `select_encoder`: the ok/error status dict. -/
inductive SelectEncoderResult : Type
  | ok (encoder : String) (message : String)
  | error (message : String)
deriving DecidableEq

/-- `HardwareEncoderManager.select_encoder`: pick the first listed encoder
whose name matches and which is available; otherwise report an error and leave
the selection unchanged. -/
def select_encoder (m : EncoderManager) (encoderName : String) :
    SelectEncoderResult × EncoderManager :=
  match m.availableEncoders.find?
      (fun e => decide (e.name = encoderName) && e.available) with
  | some e => (SelectEncoderResult.ok e.name e.description,
               { m with selectedEncoder := some e })
  | none => (SelectEncoderResult.error encoderName, m)

/-- The fixed priority order of `_select_best_encoder`. -/
def encoderPriority : List EncoderType :=
  [EncoderType.nvenc, EncoderType.quicksync, EncoderType.amf,
   EncoderType.videotoolbox, EncoderType.software]

/-- `HardwareEncoderManager._select_best_encoder`: first available encoder in
priority order, else fall back to the first software encoder, else leave the
selection alone. -/
def select_best_encoder (m : EncoderManager) : EncoderManager :=
  match encoderPriority.findSome?
      (fun ty => m.availableEncoders.find?
        (fun e => decide (e.encoderType = ty) && e.available)) with
  | some e => { m with selectedEncoder := some e }
  | none =>
      match m.availableEncoders.find? (fun e => decide (e.encoderType = EncoderType.software)) with
      | some e => { m with selectedEncoder := some e }
      | none => m

/-! ## `src/core/webrtc_server.py`: signaling state machine -/

/-- WebRTC signaling states tracked by `RTCPeerConnection`. -/
inductive SignalingState : Type
  | stable
  | haveLocalOffer
  | haveRemoteOffer
  | closed
deriving DecidableEq

/-- Typed signaling errors (spec §7). -/
inductive SignalingError : Type
  | invalidState
deriving DecidableEq

/-- The manager's view of its live connections: id ↦ signaling state. -/
structure PeerConnectionManager where
  connections : List (ℕ × SignalingState)
deriving DecidableEq

/-- The signaling state of a connection id known to the manager. -/
def lookupState (m : PeerConnectionManager) (cid : ℕ) : Option SignalingState :=
  (m.connections.find? (fun c => c.1 == cid)).map (fun c => c.2)

/-- Modelled from the spec: the state check of `AcceptAnswer` lives inside
aiortc's `RTCPeerConnection.setRemoteDescription`, which `handle_answer`
(`webrtc_server.py`) delegates to and which is not part of this repository's
sources.  Per §4.1, applying a remote answer succeeds only on a connection in
`have-local-offer` (moving it to `stable`) and fails with `InvalidStateError`
if the connection is not in that state or is unknown to the manager. -/
def acceptAnswer (m : PeerConnectionManager) (cid : ℕ) :
    Except SignalingError PeerConnectionManager :=
  match lookupState m cid with
  | none => Except.error SignalingError.invalidState
  | some st =>
      if st = SignalingState.haveLocalOffer then
        Except.ok { connections :=
          m.connections.map (fun c => if c.1 == cid then (c.1, SignalingState.stable) else c) }
      else Except.error SignalingError.invalidState

/-! ## `stream_capture.py`: `ScreenCapture.select_monitor` -/

/-- One entry of `_monitors_info`. -/
structure MonitorInfo where
  left : ℤ
  top : ℤ
  width : ℤ
  height : ℤ
  mName : String
deriving DecidableEq

/-- The capture region dict `self.monitor`. -/
structure Region where
  left : ℤ
  top : ℤ
  width : ℤ
  height : ℤ
deriving DecidableEq

/-- State of `ScreenCapture` relevant to monitor selection. -/
structure ScreenCapture where
  monitorIndex : ℤ
  monitorsInfo : List MonitorInfo
  monitor : Region
  width : ℤ
  height : ℤ
deriving DecidableEq

/-- Result of `select_monitor`: the ok/error status dict. -/
inductive SelectMonitorResult : Type
  | ok (monitorIndex : ℤ) (mName : String) (width height : ℤ)
  | error (message : String)
deriving DecidableEq

/-- `ScreenCapture.select_monitor`: refresh the monitor list (its fresh value
is OS-provided, hence a parameter), reject an out-of-range index with an error
dict before any mutation, otherwise store the index and the selected monitor's
bounding rectangle and dimensions. -/
def select_monitor (s : ScreenCapture) (freshMonitors : List MonitorInfo) (idx : ℤ) :
    SelectMonitorResult × ScreenCapture :=
  let s1 := { s with monitorsInfo := freshMonitors }
  if idx < 0 ∨ (freshMonitors.length : ℤ) ≤ idx then
    (SelectMonitorResult.error "Invalid monitor index", s1)
  else
    match freshMonitors[idx.toNat]? with
    | some mon =>
        (SelectMonitorResult.ok idx mon.mName mon.width mon.height,
         { s1 with monitorIndex := idx,
                   monitor := { left := mon.left, top := mon.top,
                                width := mon.width, height := mon.height },
                   width := mon.width, height := mon.height })
    | none => (SelectMonitorResult.error "Invalid monitor index", s1)

/-! ## Example states used to instantiate the theorems -/

/-- A bitrate controller that has seen three 200 ms latency samples and one
5000 kbps bandwidth sample, constructed at time 0. -/
def abEx : AdaptiveBitrate :=
  { currentPreset := "1080p", latencyHistory := [200, 200, 200],
    bandwidthHistory := [5000], lastAdjustment := 0, adjustmentCooldown := 3 }

/-- A jitter buffer with default bounds that has seen five equal 10 ms
inter-arrival deltas. -/
noncomputable def jbEx : JitterBuffer ℝ :=
  { minDelay := 20, maxDelay := 200, targetDelay := 50, currentDelay := 50,
    arrivalTimes := [], jitterHistory := [10, 10, 10, 10, 10] }

/-- The rationals `0, 1, …, n-1`, used as a stream of `n` distinct samples. -/
def rangeQ (n : ℕ) : List ℚ :=
  List.map (fun k : ℕ => (k : ℚ)) (List.range n)

/-- A stereo track with an empty capture queue. -/
def tEmptyEx : AudioTrack :=
  { sampleRate := 48000, channels := 2, timestamp := 0, samplesPerFrame := 960,
    audioQueue := [], muted := false, volume := 1 }

/-- One captured stereo block of full shape: 960 sample rows of 2 channels. -/
def blockEx : Block :=
  List.replicate 960 [1/2, 1/2]

/-- A stereo track whose capture queue holds one full-shape block. -/
def tBlockEx : AudioTrack :=
  { sampleRate := 48000, channels := 2, timestamp := 0, samplesPerFrame := 960,
    audioQueue := [blockEx], muted := false, volume := 1 }

/-- A mono track whose queued block holds the out-of-range sample `2.0`,
exercising the int16 conversion on a value outside `[-1, 1]`. -/
def c7Track : AudioTrack :=
  { sampleRate := 48000, channels := 1, timestamp := 0, samplesPerFrame := 960,
    audioQueue := [[[2]]], muted := false, volume := 1 }

/-- A mono track with one queued sample at half amplitude and half volume. -/
def c7wTrack : AudioTrack :=
  { sampleRate := 48000, channels := 1, timestamp := 0, samplesPerFrame := 960,
    audioQueue := [[[1/2]]], muted := false, volume := 1/2 }

/-- An encoder manager state after detection on a machine whose NVENC probe
failed its smoke test: the software baseline is available and selected, the
hardware entry is listed but unavailable. -/
def softEncEx : EncoderInfo :=
  { encoderType := EncoderType.software, name := "libx264", codec := "h264",
    available := true, description := "Software H.264 encoder (CPU)" }

def nvencEncEx : EncoderInfo :=
  { encoderType := EncoderType.nvenc, name := "h264_nvenc", codec := "h264",
    available := false, description := "NVIDIA NVENC H.264 encoder" }

def encMgrEx : EncoderManager :=
  { availableEncoders := [softEncEx, nvencEncEx], selectedEncoder := some softEncEx }

/-- A manager tracking one closed connection (id 1). -/
def pcmEx : PeerConnectionManager :=
  { connections := [(1, SignalingState.closed)] }

/-- Two enumerated monitors: the virtual-desktop entry and the primary. -/
def monAllEx : MonitorInfo :=
  { left := 0, top := 0, width := 1920, height := 1080, mName := "All Monitors" }

def mon1Ex : MonitorInfo :=
  { left := 0, top := 0, width := 1920, height := 1080, mName := "Monitor 1" }

def monsEx : List MonitorInfo :=
  [monAllEx, mon1Ex]

/-- A screen-capture state currently on monitor 1. -/
def scEx : ScreenCapture :=
  { monitorIndex := 1, monitorsInfo := monsEx,
    monitor := { left := 0, top := 0, width := 1920, height := 1080 },
    width := 1920, height := 1080 }

/-! ## Proofs about `AdaptiveBitrate` -/

lemma cq_cooldown (s : AdaptiveBitrate) (now : ℚ) :
    (calculate_quality s now).2.adjustmentCooldown = s.adjustmentCooldown := by
  unfold calculate_quality
  dsimp only
  split_ifs <;> rfl

lemma cq_state_of_preset_eq (s : AdaptiveBitrate) (now : ℚ)
    (h : (calculate_quality s now).2.currentPreset = s.currentPreset) :
    (calculate_quality s now).2 = s := by
  unfold calculate_quality at *
  dsimp only at h ⊢
  split_ifs at h ⊢ <;> simp_all

lemma cq_change (s : AdaptiveBitrate) (now : ℚ)
    (h : (calculate_quality s now).2.currentPreset ≠ s.currentPreset) :
    (calculate_quality s now).2.lastAdjustment = now ∧
      s.adjustmentCooldown ≤ now - s.lastAdjustment := by
  unfold calculate_quality at *
  dsimp only at h ⊢
  split_ifs at h ⊢ <;> simp_all

lemma cq_fst_of_lt3 (s : AdaptiveBitrate) (now : ℚ)
    (h : s.latencyHistory.length < 3) :
    calculate_quality s now = (s.currentPreset, s) := by
  unfold calculate_quality
  rw [if_pos h]

lemma cq_fst_spec (s : AdaptiveBitrate) (now : ℚ)
    (h3 : ¬ s.latencyHistory.length < 3)
    (hcd : ¬ (now - s.lastAdjustment < s.adjustmentCooldown))
    (hbw : ¬ (s.bandwidthHistory = [])) :
    (calculate_quality s now).1 =
      tierTable (mean s.latencyHistory) (mean s.bandwidthHistory) := by
  have hpick : ∀ (t : String) (a b : AdaptiveBitrate),
      (if t ≠ s.currentPreset then (t, a) else (s.currentPreset, b)).1 = t := by
    intro t a b
    split_ifs with h
    · rfl
    · exact (not_not.mp h).symm
  unfold calculate_quality
  rw [if_neg h3, if_neg hcd]
  dsimp only
  rw [if_neg hbw, hpick]
  rfl

/-- C1: with at least 3 latency samples (and a nonempty bandwidth window, as
any state reached through `update_metrics` has) and the cooldown elapsed, tier
selection returns exactly the spec's fixed threshold table applied to the mean
latency and mean bandwidth; with fewer than 3 latency samples the current tier
is returned and the state is untouched. -/
theorem C1_tier_selection_matches_table (s : AdaptiveBitrate) (now : ℚ) :
    (3 ≤ s.latencyHistory.length → s.bandwidthHistory ≠ [] →
      s.adjustmentCooldown ≤ now - s.lastAdjustment →
      (calculate_quality s now).1 =
        tierTable (mean s.latencyHistory) (mean s.bandwidthHistory)) ∧
    (s.latencyHistory.length < 3 →
      calculate_quality s now = (s.currentPreset, s)) := by
  constructor
  · intro h3 hbw hcd
    exact cq_fst_spec s now (by omega) (not_lt.mpr hcd) hbw
  · exact cq_fst_of_lt3 s now

/-- Witness for C1: on three 200 ms latency samples and 5000 kbps bandwidth,
ten seconds after construction, the controller picks the table's answer,
namely 480p; and with fewer than 3 samples the current tier is kept. -/
theorem C1_witness :
    ((calculate_quality abEx 10).1 =
        tierTable (mean abEx.latencyHistory) (mean abEx.bandwidthHistory) ∧
      (calculate_quality abEx 10).1 = "480p") ∧
    calculate_quality (mkAdaptiveBitrate 0) 1 =
      ((mkAdaptiveBitrate 0).currentPreset, mkAdaptiveBitrate 0) := by
  refine ⟨⟨?_, ?_⟩, ?_⟩
  · exact (C1_tier_selection_matches_table abEx 10).1 (by norm_num [abEx])
      (by simp [abEx]) (by norm_num [abEx])
  · have h := (C1_tier_selection_matches_table abEx 10).1 (by norm_num [abEx])
      (by simp [abEx]) (by norm_num [abEx])
    rw [h]
    simp [abEx, tierTable, mean]
    norm_num
  · exact (C1_tier_selection_matches_table (mkAdaptiveBitrate 0) 1).2
      (by norm_num [mkAdaptiveBitrate])

lemma changeTimes_lb (ops : List ABOp) :
    ∀ (s : AdaptiveBitrate), 0 ≤ s.adjustmentCooldown →
    ∀ t ∈ changeTimes ops s, s.lastAdjustment + s.adjustmentCooldown ≤ t := by
  induction ops with
  | nil =>
      intro s _ t ht
      rw [changeTimes] at ht
      exact absurd ht (List.not_mem_nil t)
  | cons op rest ih =>
      intro s hc t ht
      cases op with
      | update lat bw =>
          rw [changeTimes] at ht
          exact ih (update_metrics s lat bw) hc t ht
      | select now =>
          rw [changeTimes] at ht
          by_cases hch :
              (calculate_quality s now).2.currentPreset ≠ s.currentPreset
          · rw [if_pos hch] at ht
            rcases List.mem_cons.mp ht with heq | ht'
            · subst heq
              have := (cq_change s t hch).2
              linarith
            · have hlast := (cq_change s now hch).1
              have helapsed := (cq_change s now hch).2
              have htail := ih ((calculate_quality s now).2)
                (by rw [cq_cooldown]; exact hc) t ht'
              rw [hlast, cq_cooldown] at htail
              linarith
          · rw [if_neg hch] at ht
            rw [cq_state_of_preset_eq s now (not_not.mp hch)] at ht
            exact ih s hc t ht

lemma spaced_cons (c a : ℚ) (l : List ℚ)
    (hb : ∀ b ∈ l, a + c ≤ b) (hl : spaced c l) : spaced c (a :: l) := by
  cases l with
  | nil => trivial
  | cons b r => exact ⟨hb b (List.mem_cons_self b r), hl⟩

lemma changeTimes_spaced (ops : List ABOp) :
    ∀ (s : AdaptiveBitrate), 0 ≤ s.adjustmentCooldown →
    spaced s.adjustmentCooldown (changeTimes ops s) := by
  induction ops with
  | nil =>
      intro s _
      rw [changeTimes]
      trivial
  | cons op rest ih =>
      intro s hc
      cases op with
      | update lat bw =>
          rw [changeTimes]
          exact ih (update_metrics s lat bw) hc
      | select now =>
          rw [changeTimes]
          by_cases hch :
              (calculate_quality s now).2.currentPreset ≠ s.currentPreset
          · rw [if_pos hch]
            apply spaced_cons
            · intro b hb
              have htail := changeTimes_lb rest ((calculate_quality s now).2)
                (by rw [cq_cooldown]; exact hc) b hb
              rw [(cq_change s now hch).1, cq_cooldown] at htail
              exact htail
            · have := ih ((calculate_quality s now).2)
                (by rw [cq_cooldown]; exact hc)
              rwa [cq_cooldown] at this
          · rw [if_neg hch]
            rw [cq_state_of_preset_eq s now (not_not.mp hch)]
            exact ih s hc

/-- C2: a tier-selection call during the cooldown returns the current tier and
leaves the controller state untouched (the recomputed target is discarded, not
queued); consequently along any trace of metric updates and selection calls,
consecutive tier changes are at least one cooldown apart. -/
theorem C2_cooldown_between_changes (s : AdaptiveBitrate) (now : ℚ)
    (ops : List ABOp) (hc : 0 ≤ s.adjustmentCooldown) :
    (now - s.lastAdjustment < s.adjustmentCooldown →
      calculate_quality s now = (s.currentPreset, s)) ∧
    spaced s.adjustmentCooldown (changeTimes ops s) := by
  constructor
  · intro hlt
    by_cases h3 : s.latencyHistory.length < 3
    · exact cq_fst_of_lt3 s now h3
    · unfold calculate_quality
      rw [if_neg h3, if_pos hlt]
  · exact changeTimes_spaced ops s hc

/-- Witness for C2: with the default 3 s cooldown, a selection call one second
after construction keeps the current tier and state; and a trace of three
updates and a selection has its change times at least 3 s apart. -/
theorem C2_witness :
    calculate_quality (mkAdaptiveBitrate 0) 1 =
      ("1080p", mkAdaptiveBitrate 0) ∧
    spaced 3 (changeTimes
      [ABOp.update 200 500, ABOp.update 200 500, ABOp.update 200 500,
       ABOp.select 10] (mkAdaptiveBitrate 0)) := by
  have h := C2_cooldown_between_changes (mkAdaptiveBitrate 0) 1
    [ABOp.update 200 500, ABOp.update 200 500, ABOp.update 200 500,
     ABOp.select 10] (by norm_num [mkAdaptiveBitrate])
  refine ⟨?_, h.2⟩
  have := h.1 (by norm_num [mkAdaptiveBitrate])
  simpa [mkAdaptiveBitrate] using this

/-! ## Proofs about `JitterBuffer` -/

/-- C3: with fewer than 5 recorded inter-arrival deltas the optimal-delay
calculation returns the configured target delay and leaves the buffer
untouched; with 5 or more it returns `mean + 2 * stdev` truncated to an
integer and clamped into `[minDelay, maxDelay]`, exactly the spec's formula. -/
theorem C3_optimal_delay_formula (jb : JitterBuffer ℝ) :
    (jb.jitterHistory.length < 5 →
      calculate_optimal_delay jb = (jb.targetDelay, jb)) ∧
    (5 ≤ jb.jitterHistory.length →
      (calculate_optimal_delay jb).1 =
        specOptimalDelay jb.minDelay jb.maxDelay jb.jitterHistory) := by
  constructor
  · intro h
    unfold calculate_optimal_delay
    rw [if_pos h]
  · intro h
    unfold calculate_optimal_delay specOptimalDelay stdev
    rw [if_neg (not_lt.mpr h)]

/-- Witness for C3: on five equal 10 ms deltas the jitter is 0, the raw
optimum is 10, and clamping to the default `[20, 200]` bounds yields 20. -/
theorem C3_witness :
    5 ≤ jbEx.jitterHistory.length ∧ (calculate_optimal_delay jbEx).1 = 20 := by
  have h5 : 5 ≤ jbEx.jitterHistory.length := by simp [jbEx]
  refine ⟨h5, ?_⟩
  have h := (C3_optimal_delay_formula jbEx).2 h5
  rw [h]
  have hmean : mean jbEx.jitterHistory = 10 := by
    simp [jbEx, mean]
    norm_num
  have hvar : sampleVariance jbEx.jitterHistory = 0 := by
    simp [sampleVariance, hmean]
    simp [jbEx]
  unfold specOptimalDelay stdev
  rw [hvar, hmean, Real.sqrt_zero]
  norm_num [pyTrunc, jbEx]

/-! ## Proofs about the bounded windows (C5) -/

lemma pushBounded_length {α : Type} (cap : ℕ) (l : List α) (x : α) :
    (pushBounded cap l x).length = min (l.length + 1) cap := by
  simp [pushBounded]
  omega

lemma pushBounded_le {α : Type} (cap : ℕ) (l : List α) (x : α) :
    (pushBounded cap l x).length ≤ cap := by
  rw [pushBounded_length]
  omega

lemma pushBounded_def {α : Type} (cap : ℕ) (l : List α) (x : α) :
    pushBounded cap l x = (l ++ [x]).drop (l.length + 1 - cap) := by
  simp [pushBounded]

lemma pushBounded_evict {α : Type} (cap : ℕ) (l : List α) (x : α)
    (hcap : 0 < cap) (h : l.length = cap) :
    pushBounded cap l x = l.tail ++ [x] := by
  cases l with
  | nil =>
      simp at h
      omega
  | cons a as =>
      simp at h
      rw [pushBounded_def]
      rw [show (a :: as).length + 1 - cap = 1 from by simp; omega]
      simp

lemma pushBounded_foldl {α : Type} (cap : ℕ) :
    ∀ (xs : List α) (l0 : List α), l0.length ≤ cap →
      xs.foldl (pushBounded cap) l0 =
        (l0 ++ xs).drop (l0.length + xs.length - cap) := by
  intro xs
  induction xs with
  | nil =>
      intro l0 h0
      simp only [List.foldl_nil, List.append_nil, List.length_nil, Nat.add_zero]
      rw [Nat.sub_eq_zero_of_le h0, List.drop_zero]
  | cons x xs ih =>
      intro l0 h0
      rw [List.foldl_cons]
      rw [ih (pushBounded cap l0 x) (pushBounded_le cap l0 x)]
      rw [pushBounded_length, pushBounded_def]
      rw [← List.drop_append_of_le_length
        (show l0.length + 1 - cap ≤ (l0 ++ [x]).length from by simp)]
      rw [List.drop_drop]
      rw [List.append_assoc, List.singleton_append]
      congr 1
      simp
      omega

lemma add_packet_bounds {α : Type} [Sub α] (jb : JitterBuffer α) (now : α)
    (h2 : jb.jitterHistory.length ≤ 50) :
    (add_packet jb now).arrivalTimes.length ≤ 100 ∧
      (add_packet jb now).jitterHistory.length ≤ 50 := by
  unfold add_packet
  dsimp only
  cases hlt : lastTwo (pushBounded 100 jb.arrivalTimes now) with
  | some p =>
      obtain ⟨prev, lastv⟩ := p
      exact ⟨pushBounded_le _ _ _, pushBounded_le _ _ _⟩
  | none =>
      exact ⟨pushBounded_le _ _ _, h2⟩

lemma foldl_add_packet_bounds {α : Type} [Sub α] (ts : List α) :
    ∀ (jb : JitterBuffer α), jb.arrivalTimes.length ≤ 100 →
      jb.jitterHistory.length ≤ 50 →
      (ts.foldl add_packet jb).arrivalTimes.length ≤ 100 ∧
        (ts.foldl add_packet jb).jitterHistory.length ≤ 50 := by
  induction ts with
  | nil => intro jb h1 h2; exact ⟨h1, h2⟩
  | cons t ts ih =>
      intro jb h1 h2
      rw [List.foldl_cons]
      have hb := add_packet_bounds jb t h2
      exact ih (add_packet jb t) hb.1 hb.2

lemma foldl_update_metrics_bounds (ms : List (ℚ × ℚ)) :
    ∀ (s : AdaptiveBitrate), s.latencyHistory.length ≤ 30 →
      s.bandwidthHistory.length ≤ 20 →
      ((ms.foldl (fun s2 m => update_metrics s2 m.1 m.2) s).latencyHistory.length ≤ 30 ∧
        (ms.foldl (fun s2 m => update_metrics s2 m.1 m.2) s).bandwidthHistory.length ≤ 20) := by
  induction ms with
  | nil => intro s h1 h2; exact ⟨h1, h2⟩
  | cons m ms ih =>
      intro s h1 h2
      rw [List.foldl_cons]
      exact ih (update_metrics s m.1 m.2)
        (pushBounded_le _ _ _) (pushBounded_le _ _ _)

/-- C5: the historical windows never exceed their configured bounds (100
arrival timestamps and 50 deltas in the jitter buffer; 30 latency and 20
bandwidth samples in the bitrate controller); a full window evicts exactly its
oldest element on append; and appending any stream to an empty window retains
exactly the newest `cap` elements in insertion order. -/
theorem C5_windows_bounded :
    (∀ (ts : List ℚ) (jb : JitterBuffer ℚ),
      jb.arrivalTimes.length ≤ 100 → jb.jitterHistory.length ≤ 50 →
      (ts.foldl add_packet jb).arrivalTimes.length ≤ 100 ∧
        (ts.foldl add_packet jb).jitterHistory.length ≤ 50) ∧
    (∀ (ms : List (ℚ × ℚ)) (s : AdaptiveBitrate),
      s.latencyHistory.length ≤ 30 → s.bandwidthHistory.length ≤ 20 →
      ((ms.foldl (fun s2 m => update_metrics s2 m.1 m.2) s).latencyHistory.length ≤ 30 ∧
        (ms.foldl (fun s2 m => update_metrics s2 m.1 m.2) s).bandwidthHistory.length ≤ 20)) ∧
    (∀ (l : List ℚ) (x : ℚ) (cap : ℕ), 0 < cap → l.length = cap →
      pushBounded cap l x = l.tail ++ [x]) ∧
    (∀ (xs : List ℚ) (cap : ℕ),
      xs.foldl (pushBounded cap) [] = xs.drop (xs.length - cap)) := by
  refine ⟨fun ts jb => foldl_add_packet_bounds ts jb,
          fun ms s => foldl_update_metrics_bounds ms s,
          fun l x cap hcap h => pushBounded_evict cap l x hcap h,
          fun xs cap => ?_⟩
  have h := pushBounded_foldl cap xs [] (by simp)
  simpa using h

/-- Witness for C5: three packets stay within the jitter bounds, and
appending 1000 samples to an empty 50-slot window leaves exactly the 950th
through 999th samples, in order. -/
theorem C5_witness :
    (([1, 2, 3] : List ℚ).foldl add_packet
        (mkJitterBuffer : JitterBuffer ℚ)).arrivalTimes.length ≤ 100 ∧
    (rangeQ 1000).foldl (pushBounded 50) [] = (rangeQ 1000).drop 950 := by
  constructor
  · exact (C5_windows_bounded.1 [1, 2, 3] mkJitterBuffer
      (by simp [mkJitterBuffer]) (by simp [mkJitterBuffer])).1
  · have h := C5_windows_bounded.2.2.2 (rangeQ 1000) 50
    have hlen : (rangeQ 1000).length = 1000 := by
      rw [rangeQ, List.length_map, List.length_range]
    rw [hlen] at h
    norm_num at h
    exact h

/-! ## Proofs about the audio track (C4, C6, C7) -/

lemma recv_pts (t : AudioTrack) : (recv t).1.pts = t.timestamp := rfl

lemma recv_timestamp (t : AudioTrack) :
    (recv t).2.timestamp = t.timestamp + t.samplesPerFrame := rfl

lemma recv_spf (t : AudioTrack) :
    (recv t).2.samplesPerFrame = t.samplesPerFrame := rfl

lemma capturePut_timestamp (t : AudioTrack) (b : Block) :
    (capturePut t b).timestamp = t.timestamp := by
  unfold capturePut
  split_ifs <;> rfl

lemma capturePut_spf (t : AudioTrack) (b : Block) :
    (capturePut t b).samplesPerFrame = t.samplesPerFrame := by
  unfold capturePut
  split_ifs <;> rfl

lemma ptsTrace_head (ops : List TrackOp) :
    ∀ (t : AudioTrack) (p : ℕ), (ptsTrace ops t).head? = some p → p = t.timestamp := by
  induction ops with
  | nil =>
      intro t p h
      rw [ptsTrace] at h
      exact absurd h (by simp)
  | cons op rest ih =>
      intro t p h
      cases op with
      | pull =>
          rw [ptsTrace] at h
          simp at h
          rw [← h]
          rfl
      | capture b =>
          rw [ptsTrace] at h
          rw [ih (capturePut t b) p h, capturePut_timestamp]

lemma ptsTrace_chain (ops : List TrackOp) :
    ∀ (t : AudioTrack),
      chainP (fun p q => q = p + t.samplesPerFrame) (ptsTrace ops t) := by
  induction ops with
  | nil =>
      intro t
      rw [ptsTrace]
      trivial
  | cons op rest ih =>
      intro t
      cases op with
      | capture b =>
          rw [ptsTrace]
          have h := ih (capturePut t b)
          rwa [capturePut_spf] at h
      | pull =>
          rw [ptsTrace]
          have htail := ih ((recv t).2)
          rw [recv_spf] at htail
          cases hlist : ptsTrace rest ((recv t).2) with
          | nil => trivial
          | cons b r =>
              rw [hlist] at htail
              refine ⟨?_, htail⟩
              have hb := ptsTrace_head rest ((recv t).2) b (by rw [hlist]; rfl)
              rw [hb, recv_timestamp, recv_pts]

lemma chainP_imp (R S : ℕ → ℕ → Prop) (h : ∀ a b, R a b → S a b) :
    ∀ l, chainP R l → chainP S l := by
  intro l
  induction l with
  | nil => intro; trivial
  | cons a l ih =>
      cases l with
      | nil => intro; trivial
      | cons b r =>
          intro hc
          exact ⟨h a b hc.1, ih hc.2⟩

/-- C4: along any interleaving of consumer pulls and capture enqueues on a
freshly constructed audio track — including pulls on an empty queue and pulls
after missing captures — each emitted presentation timestamp exceeds the
previous one by exactly 960 (the samples-per-frame block size at 48 kHz), so
the timestamps are strictly increasing. -/
theorem C4_pts_strictly_increasing (sampleRate channels : ℕ) (ops : List TrackOp) :
    chainP (fun p q => q = p + 960)
      (ptsTrace ops (mkAudioCaptureTrack sampleRate channels)) ∧
    chainP (fun p q => p < q)
      (ptsTrace ops (mkAudioCaptureTrack sampleRate channels)) := by
  have h960 : chainP (fun p q : ℕ => q = p + 960)
      (ptsTrace ops (mkAudioCaptureTrack sampleRate channels)) :=
    ptsTrace_chain ops (mkAudioCaptureTrack sampleRate channels)
  exact ⟨h960, chainP_imp _ _ (fun a b hr => by omega) _ h960⟩

lemma blockShape_map {α β : Type} (f : α → β) (l : List (List α)) :
    blockShape (l.map (fun row => row.map f)) = blockShape l := by
  simp [blockShape, List.map_map, Function.comp]

lemma recv_samples (t : AudioTrack) :
    (recv t).1.samples =
      (if t.muted then (frontBlock t).map (fun row => row.map (fun _ => (0 : ℚ)))
       else (frontBlock t).map (fun row => row.map (fun x => x * t.volume))).map
        (fun row => row.map (fun x => int16wrap (pyTrunc (x * 32767)))) := rfl

lemma recv_shape (t : AudioTrack) :
    blockShape (recv t).1.samples = blockShape (frontBlock t) := by
  rw [recv_samples]
  split_ifs with hm <;> rw [blockShape_map, blockShape_map]

lemma frontBlock_empty (t : AudioTrack) (hq : t.audioQueue = []) :
    frontBlock t = List.replicate t.samplesPerFrame (List.replicate t.channels 0) := by
  unfold frontBlock
  rw [hq]

lemma frontBlock_cons (t : AudioTrack) (b : Block) (rest : List Block)
    (hq : t.audioQueue = b :: rest) : frontBlock t = b := by
  unfold frontBlock
  rw [hq]

lemma quant_zero : int16wrap (pyTrunc ((0 : ℚ))) = 0 := by
  norm_num [pyTrunc, int16wrap]

lemma recv_empty_silence (t : AudioTrack) (hq : t.audioQueue = []) :
    (recv t).1.samples =
      List.replicate t.samplesPerFrame (List.replicate t.channels 0) := by
  rw [recv_samples, frontBlock_empty t hq]
  split_ifs with hm
  · simp [List.map_replicate, quant_zero]
  · simp [List.map_replicate, quant_zero]

/-- C6: a pull on an empty capture queue emits an all-zero block whose shape —
960 sample rows, `channels` columns — is identical to the shape of the frame a
full-shape captured block produces, so the track never stalls without input. -/
theorem C6_empty_queue_silence_shape (t t2 : AudioTrack) (b : Block)
    (rest : List Block) (hq : t.audioQueue = []) (hq2 : t2.audioQueue = b :: rest)
    (hb1 : b.length = 960) (hb2 : ∀ r ∈ b, r.length = t2.channels)
    (hch : t2.channels = t.channels) (hspf : t.samplesPerFrame = 960) :
    blockShape (recv t).1.samples = blockShape (recv t2).1.samples ∧
    (recv t).1.samples.length = 960 ∧
    (∀ r ∈ (recv t).1.samples, r.length = t.channels) ∧
    (∀ r ∈ (recv t).1.samples, ∀ v ∈ r, v = 0) := by
  have hsil := recv_empty_silence t hq
  have hmap : b.map List.length = List.replicate 960 t.channels := by
    rw [← hch]
    rw [List.eq_replicate_iff]
    constructor
    · rw [List.length_map, hb1]
    · intro x hx
      rw [List.mem_map] at hx
      obtain ⟨r, hr, rfl⟩ := hx
      exact hb2 r hr
  refine ⟨?_, ?_, ?_, ?_⟩
  · rw [recv_shape, recv_shape, frontBlock_empty t hq, frontBlock_cons t2 b rest hq2]
    unfold blockShape
    rw [hmap, List.map_replicate, List.length_replicate, List.length_replicate,
      hspf, hb1]
  · rw [hsil, List.length_replicate]
    exact hspf
  · intro r hr
    rw [hsil] at hr
    rw [List.mem_replicate] at hr
    rw [hr.2]
    simp
  · intro r hr v hv
    rw [hsil] at hr
    rw [List.mem_replicate] at hr
    rw [hr.2] at hv
    rw [List.mem_replicate] at hv
    exact hv.2

/-- Witness for C6: a pull on an empty stereo queue yields 960 all-zero rows,
the same shape a queued full-shape captured block yields. -/
theorem C6_witness :
    blockShape (recv tEmptyEx).1.samples = blockShape (recv tBlockEx).1.samples ∧
    (recv tEmptyEx).1.samples.length = 960 ∧
    (∀ r ∈ (recv tEmptyEx).1.samples, ∀ v ∈ r, v = 0) := by
  have hb2 : ∀ r ∈ blockEx, r.length = tBlockEx.channels := by
    intro r hr
    rw [List.eq_of_mem_replicate (show r ∈ List.replicate 960 [1/2, 1/2] from hr)]
    rfl
  have h := C6_empty_queue_silence_shape tEmptyEx tBlockEx blockEx [] rfl rfl
    (by rw [blockEx, List.length_replicate]) hb2 rfl rfl
  exact ⟨h.1, h.2.1, h.2.2.2⟩

lemma int16wrap_range (n : ℤ) : -32768 ≤ int16wrap n ∧ int16wrap n ≤ 32767 := by
  unfold int16wrap
  have h1 : 0 ≤ (n + 32768) % 65536 := Int.emod_nonneg _ (by norm_num)
  have h2 : (n + 32768) % 65536 < 65536 := Int.emod_lt_of_pos _ (by norm_num)
  omega

/-- C7 (amended): on a pull that dequeues a block, mute forces an all-zero
output; otherwise every sample is scaled by the volume factor before
quantization; and the int16 conversion lands in `[-32768, 32767]` by
two's-complement wraparound — not by clamping. -/
theorem C7_mute_volume_quantize_wrap (t : AudioTrack) (b : Block)
    (rest : List Block) (hq : t.audioQueue = b :: rest) :
    (t.muted = true → ∀ r ∈ (recv t).1.samples, ∀ v ∈ r, v = 0) ∧
    (t.muted = false → (recv t).1.samples =
      b.map (fun row => row.map (fun x => int16wrap (pyTrunc (x * t.volume * 32767))))) ∧
    (∀ r ∈ (recv t).1.samples, ∀ v ∈ r, -32768 ≤ v ∧ v ≤ 32767) := by
  refine ⟨?_, ?_, ?_⟩
  · intro hm r hr v hv
    rw [recv_samples, frontBlock_cons t b rest hq, if_pos (by simp [hm])] at hr
    simp only [List.mem_map] at hr
    obtain ⟨row, ⟨a, ha, rfl⟩, rfl⟩ := hr
    simp only [List.mem_map] at hv
    obtain ⟨z, ⟨y, hy, rfl⟩, rfl⟩ := hv
    norm_num [pyTrunc, int16wrap]
  · intro hm
    rw [recv_samples, frontBlock_cons t b rest hq, if_neg (by simp [hm])]
    simp [List.map_map, Function.comp]
  · intro r hr v hv
    rw [recv_samples] at hr
    split_ifs at hr
    all_goals
      simp only [List.mem_map] at hr
      obtain ⟨row, ⟨a, ha, rfl⟩, rfl⟩ := hr
      simp only [List.mem_map] at hv
      obtain ⟨z, ⟨y, hy, rfl⟩, rfl⟩ := hv
      exact int16wrap_range _

/-- Counterexample for C7 as stated: the float sample `2.0` (outside
`[-1, 1]`) at volume 1 is emitted as `-2` — the int16 conversion wrapped
around — while clamping to the int16 range, as the claim asserts, would give
`32767`. -/
theorem C7_counterexample :
    (recv c7Track).1.samples = [[-2]] ∧
    specClampQuant 2 = 32767 ∧
    (recv c7Track).1.samples ≠ [[specClampQuant 2]] := by
  have h1 : (recv c7Track).1.samples = [[-2]] := by
    simp [recv_samples, frontBlock, c7Track, pyTrunc, int16wrap]
    norm_num
  have h2 : specClampQuant 2 = 32767 := by
    simp [specClampQuant, pyTrunc]
    norm_num
  refine ⟨h1, h2, ?_⟩
  rw [h1, h2]
  decide

/-- Witness for C7 (amended): a half-amplitude sample at half volume is
emitted as `⌊0.25 · 32767⌋ = 8191`, inside the int16 range. -/
theorem C7_witness :
    (recv c7wTrack).1.samples = [[8191]] := by
  have h := (C7_mute_volume_quantize_wrap c7wTrack [[1/2]] [] rfl).2.1 rfl
  rw [h]
  norm_num [pyTrunc, int16wrap, c7wTrack]

/-! ## Proofs about encoder selection (C8) -/


/-- C8: selecting an encoder whose name matches no available backend reports
the error result (the spec's `EncoderUnavailableError`) and leaves the
selected encoder unchanged; and automatic best-encoder selection never moves
the selection to an unavailable backend (software entries are constructed
available by detection). -/
theorem C8_unavailable_encoder_rejected (m : EncoderManager) (name : String) :
    ((∀ e ∈ m.availableEncoders, e.name = name → e.available = false) →
      select_encoder m name = (SelectEncoderResult.error name, m)) ∧
    ((∀ e ∈ m.availableEncoders,
        e.encoderType = EncoderType.software → e.available = true) →
      ∀ e, (select_best_encoder m).selectedEncoder = some e →
        m.selectedEncoder = some e ∨ e.available = true) := by
  constructor
  · intro h
    unfold select_encoder
    have hnone : m.availableEncoders.find?
        (fun e => decide (e.name = name) && e.available) = none := by
      rw [List.find?_eq_none]
      intro e he
      by_cases hn : e.name = name
      · simp [h e he hn]
      · simp [hn]
    rw [hnone]
  · intro hsw e he
    unfold select_best_encoder at he
    cases hfs : encoderPriority.findSome?
        (fun ty => m.availableEncoders.find?
          (fun e2 => decide (e2.encoderType = ty) && e2.available)) with
    | some e0 =>
        rw [hfs] at he
        simp at he
        right
        obtain ⟨ty, hty, hfind⟩ := List.exists_of_findSome?_eq_some hfs
        have := List.find?_some hfind
        simp at this
        rw [← he]
        exact this.2
    | none =>
        rw [hfs] at he
        cases hsw2 : m.availableEncoders.find?
            (fun e2 => decide (e2.encoderType = EncoderType.software)) with
        | some e1 =>
            rw [hsw2] at he
            simp at he
            right
            have hmem := List.mem_of_find?_eq_some hsw2
            have := List.find?_some hsw2
            simp at this
            rw [← he]
            exact hsw e1 hmem this
        | none =>
            rw [hsw2] at he
            left
            exact he

/-- Witness for C8: requesting `h264_nvenc`, present but failed its smoke
test, errors out and keeps `libx264` selected; best-encoder selection keeps
the selection on an available encoder. -/
theorem C8_witness :
    select_encoder encMgrEx "h264_nvenc" =
      (SelectEncoderResult.error "h264_nvenc", encMgrEx) ∧
    (select_encoder encMgrEx "h264_nvenc").2.selectedEncoder = some softEncEx := by
  have h := (C8_unavailable_encoder_rejected encMgrEx "h264_nvenc").1 (by decide)
  exact ⟨h, by rw [h]; rfl⟩

/-! ## Proofs about the signaling state machine (C9) -/

/-- C9 (spec-modelled): applying a remote answer to a connection that is
unknown to the manager or not in `have-local-offer` — in particular one in
`closed` — fails with `InvalidStateError`; no updated manager is produced, so
no connection state changes. -/
theorem C9_accept_answer_invalid_state (m : PeerConnectionManager) (cid : ℕ)
    (h : ∀ st, lookupState m cid = some st → st ≠ SignalingState.haveLocalOffer) :
    acceptAnswer m cid = Except.error SignalingError.invalidState := by
  unfold acceptAnswer
  cases hls : lookupState m cid with
  | none => rfl
  | some st =>
      simp [h st hls]

/-- Witness for C9: a manager holding one closed connection rejects an answer
for it, and also rejects an answer for an id it does not know. -/
theorem C9_witness :
    acceptAnswer pcmEx 1 = Except.error SignalingError.invalidState ∧
    acceptAnswer pcmEx 2 = Except.error SignalingError.invalidState := by
  constructor
  · exact C9_accept_answer_invalid_state pcmEx 1 (by decide)
  · exact C9_accept_answer_invalid_state pcmEx 2 (by decide)

/-! ## Proofs about monitor selection (C10) -/

/-- C10: an out-of-range monitor index (negative or at least the number of
enumerated monitors) yields the error result and leaves the selected index,
capture region, and recorded width and height unchanged; an in-range index
yields the ok result and sets the capture region to that monitor's bounding
rectangle. -/
theorem C10_select_monitor (s : ScreenCapture) (mons : List MonitorInfo)
    (idx : ℤ) :
    ((idx < 0 ∨ (mons.length : ℤ) ≤ idx) →
      (select_monitor s mons idx).1 =
        SelectMonitorResult.error "Invalid monitor index" ∧
      (select_monitor s mons idx).2.monitorIndex = s.monitorIndex ∧
      (select_monitor s mons idx).2.monitor = s.monitor ∧
      (select_monitor s mons idx).2.width = s.width ∧
      (select_monitor s mons idx).2.height = s.height) ∧
    (∀ mon, 0 ≤ idx → mons[idx.toNat]? = some mon →
      (select_monitor s mons idx).1 =
        SelectMonitorResult.ok idx mon.mName mon.width mon.height ∧
      (select_monitor s mons idx).2.monitorIndex = idx ∧
      (select_monitor s mons idx).2.monitor =
        { left := mon.left, top := mon.top,
          width := mon.width, height := mon.height } ∧
      (select_monitor s mons idx).2.width = mon.width ∧
      (select_monitor s mons idx).2.height = mon.height) := by
  constructor
  · intro h
    unfold select_monitor
    rw [if_pos h]
    exact ⟨rfl, rfl, rfl, rfl, rfl⟩
  · intro mon hpos hsome
    have hlt : idx.toNat < mons.length := (List.getElem?_eq_some_iff.mp hsome).1
    have hneg : ¬ (idx < 0 ∨ (mons.length : ℤ) ≤ idx) := by
      push_neg
      omega
    unfold select_monitor
    rw [if_neg hneg, hsome]
    exact ⟨rfl, rfl, rfl, rfl, rfl⟩

/-- Witness for C10: with two enumerated monitors, index 5 errors and leaves
the state untouched, while index 1 selects the primary monitor's rectangle. -/
theorem C10_witness :
    (select_monitor scEx monsEx 5).1 =
      SelectMonitorResult.error "Invalid monitor index" ∧
    (select_monitor scEx monsEx 5).2.monitorIndex = scEx.monitorIndex ∧
    (select_monitor scEx monsEx 1).1 =
      SelectMonitorResult.ok 1 "Monitor 1" 1920 1080 := by
  have hout := (C10_select_monitor scEx monsEx 5).1 (by right; norm_num [monsEx])
  have hin := (C10_select_monitor scEx monsEx 1).2 mon1Ex (by norm_num) rfl
  exact ⟨hout.1, hout.2.1, hin.1⟩

end SpaceLink
